import Mathlib

/-!
Verification of the betterpem library (`main.go`, package `betterpem`).

The library extracts cryptographic objects from PEM input.  Its externally
provided collaborators (`pem.Decode` and the four `crypto/x509` DER parsers)
are modelled as parameters: a `PemDecoder` (a pure block decoder that
strictly consumes input when it yields a block) and a `Parsers` record of
the four DER parsing functions.  Go `interface{}` values stored in a
`ParsedPEMs` are modelled by the dynamic-value universe `GoValue`: the code
stores whatever concrete value a parser returned, with no added tag, so a
PKCS#8 result that happens to be an RSA key is represented by the very same
`GoValue.rsaKey` constructor as a PKCS#1 result.  Go panics in the `Must*`
accessors and in `Interface` are modelled as `Except.error` outcomes paired
with the receiver state after the (aborted) call.
-/

set_option autoImplicit false

namespace Betterpem

/-- Dynamic (`interface{}`) values that can be stored in `ParsedPEMs.objs`:
`*x509.Certificate`, `*rsa.PrivateKey`, `*ecdsa.PrivateKey`, or any other
dynamic type (e.g. an `ed25519.PrivateKey` returned by the PKCS#8 parser).
The type parameters stand for the externally-defined structured values. -/
inductive GoValue (C R E O : Type) where
  | cert (c : C)
  | rsaKey (k : R)
  | ecKey (k : E)
  | other (v : O)
deriving DecidableEq

/-- A decoded PEM block, as returned by `pem.Decode`: its `Type` string and
its DER `Bytes` (bytes modelled as `List Nat`). -/
structure PemBlock where
  type : String
  bytes : List Nat
deriving DecidableEq

/-- The error values `ParsePEMs` can return: `ErrPemUnderlyingFormatError`
(input was not a string, `[]byte`, or `io.Reader`), `ErrPemIsUnsupportedType`
(no recognized PEM block was found), or an error propagated verbatim from a
collaborator (`io.ReadAll` or one of the x509 parsers). -/
inductive PemError (Err : Type) where
  | underlyingFormatError
  | unsupportedType
  | goError (e : Err)
deriving DecidableEq

/-- The panics the consumption API can raise: the runtime index-out-of-range
panic from `p.objs[0]` on an empty slice, or the explicit
`panic(fmt.Sprintf("%#v is not an ..."))` on a failed type assertion. -/
inductive MustError where
  | indexOutOfRange
  | notCertificate
  | notRSAPrivateKey
  | notECPrivateKey
deriving DecidableEq

/-- The dynamic shapes an `interface{}` argument to `ParsePEMs` can take:
a `[]byte`, a `string` (a Go string is an immutable byte sequence; the
`[]byte(s)` conversion yields those bytes), an `io.Reader` (modelled by the
outcome of fully draining it with `io.ReadAll`), or any other type. -/
inductive PemInput (Err : Type) where
  | bytes (b : List Nat)
  | str (s : List Nat)
  | reader (r : Except Err (List Nat))
  | otherShape

/-- Decidable equality on `Except`, used to evaluate the model on concrete
inputs. -/
instance instDecEqExcept {ε α : Type} [DecidableEq ε] [DecidableEq α] :
    DecidableEq (Except ε α) := fun x y =>
  match x, y with
  | Except.ok a, Except.ok b => decidable_of_iff (a = b) (by simp)
  | Except.error a, Except.error b => decidable_of_iff (a = b) (by simp)
  | Except.ok _, Except.error _ => isFalse (by simp)
  | Except.error _, Except.ok _ => isFalse (by simp)

variable {C R E O Err : Type}

/-- Embeds `intoBytes`: a type switch returning the `[]byte` unchanged, the
bytes of a `string`, the full drain of an `io.Reader` (propagating its read
error), and `ErrPemUnderlyingFormatError` for any other dynamic type. -/
def intoBytes : PemInput Err → Except (PemError Err) (List Nat)
  | PemInput.bytes v => Except.ok v
  | PemInput.str v => Except.ok v
  | PemInput.reader v =>
    match v with
    | Except.ok pemBytes => Except.ok pemBytes
    | Except.error e => Except.error (PemError.goError e)
  | PemInput.otherShape => Except.error PemError.underlyingFormatError

/-- Embeds the `ParsedPEMs` struct: the slice of parsed `interface{}`
objects, in discovery order. -/
structure ParsedPEMs (C R E O : Type) where
  objs : List (GoValue C R E O)
deriving DecidableEq

/-- Embeds `(*ParsedPEMs).Length`: the number of objects remaining. -/
def ParsedPEMs.Length (p : ParsedPEMs C R E O) : Nat := p.objs.length

/-- Embeds `(*ParsedPEMs).Interface`: `ret := p.objs[0]` (a runtime panic if
the slice is empty, leaving the receiver unchanged), then `p.objs = p.objs[1:]`
and return `ret`.  The pair carries the result and the receiver state after
the call. -/
def ParsedPEMs.Interface (p : ParsedPEMs C R E O) :
    Except MustError (GoValue C R E O) × ParsedPEMs C R E O :=
  match p.objs with
  | [] => (Except.error MustError.indexOutOfRange, p)
  | x :: rest => (Except.ok x, ⟨rest⟩)

/-- Embeds `(*ParsedPEMs).MustCertificate`: index `p.objs[0]` (panicking on
an empty slice), type-assert to `*x509.Certificate` (panicking on mismatch,
before the slice is advanced, so the receiver is unchanged on failure), then
advance `p.objs = p.objs[1:]` and return the certificate. -/
def ParsedPEMs.MustCertificate (p : ParsedPEMs C R E O) :
    Except MustError C × ParsedPEMs C R E O :=
  match p.objs with
  | [] => (Except.error MustError.indexOutOfRange, p)
  | GoValue.cert c :: rest => (Except.ok c, ⟨rest⟩)
  | _ :: _ => (Except.error MustError.notCertificate, p)

/-- Embeds `(*ParsedPEMs).MustRSAPrivateKey`, analogously to
`MustCertificate` with a `*rsa.PrivateKey` type assertion. -/
def ParsedPEMs.MustRSAPrivateKey (p : ParsedPEMs C R E O) :
    Except MustError R × ParsedPEMs C R E O :=
  match p.objs with
  | [] => (Except.error MustError.indexOutOfRange, p)
  | GoValue.rsaKey k :: rest => (Except.ok k, ⟨rest⟩)
  | _ :: _ => (Except.error MustError.notRSAPrivateKey, p)

/-- Embeds `(*ParsedPEMs).MustECPrivateKey`, analogously to
`MustCertificate` with a `*ecdsa.PrivateKey` type assertion. -/
def ParsedPEMs.MustECPrivateKey (p : ParsedPEMs C R E O) :
    Except MustError E × ParsedPEMs C R E O :=
  match p.objs with
  | [] => (Except.error MustError.indexOutOfRange, p)
  | GoValue.ecKey k :: rest => (Except.ok k, ⟨rest⟩)
  | _ :: _ => (Except.error MustError.notECPrivateKey, p)

/-- The four DER parsers from `crypto/x509` used by `ParsePEMs`, as abstract
collaborators.  `ParsePKCS8PrivateKey` returns a Go `any`, so its model
returns an arbitrary dynamic value. -/
structure Parsers (C R E O Err : Type) where
  ParseCertificate : List Nat → Except Err C
  ParsePKCS1PrivateKey : List Nat → Except Err R
  ParseECPrivateKey : List Nat → Except Err E
  ParsePKCS8PrivateKey : List Nat → Except Err (GoValue C R E O)

/-- The `pem.Decode` collaborator: yields the next block and the remaining
suffix, or `none` when no further block is found.  When it yields a block it
has consumed at least the block's framing, so the remainder is strictly
shorter — the property the Go loop's termination rests on. -/
structure PemDecoder where
  decode : List Nat → Option (PemBlock × List Nat)
  shrinks : ∀ {b : List Nat} {blk : PemBlock} {rest : List Nat},
    decode b = some (blk, rest) → rest.length < b.length

/-- Embeds the `switch der.Type` dispatch inside the `ParsePEMs` loop:
the four exact-string cases invoke the matching parser (an `Except.error`
aborts the whole call), and the `default` case produces no object
(`Except.ok none`). -/
def dispatchBlock (ps : Parsers C R E O Err) (der : PemBlock) :
    Except Err (Option (GoValue C R E O)) :=
  if der.type = "CERTIFICATE" then
    (ps.ParseCertificate der.bytes).map (fun r => some (GoValue.cert r))
  else if der.type = "RSA PRIVATE KEY" then
    (ps.ParsePKCS1PrivateKey der.bytes).map (fun r => some (GoValue.rsaKey r))
  else if der.type = "EC PRIVATE KEY" then
    (ps.ParseECPrivateKey der.bytes).map (fun r => some (GoValue.ecKey r))
  else if der.type = "PRIVATE KEY" then
    (ps.ParsePKCS8PrivateKey der.bytes).map (fun r => some r)
  else
    Except.ok none

/-- Embeds the `for` loop of `ParsePEMs`: repeatedly `pem.Decode` the
remaining suffix, stop when no block is found, dispatch each block by type,
abort on a parser error, and append each produced object to `objs`. -/
def ParsePEMsLoop (d : PemDecoder) (ps : Parsers C R E O Err)
    (objs : List (GoValue C R E O)) (rest : List Nat) :
    Except Err (List (GoValue C R E O)) :=
  match h : d.decode rest with
  | none => Except.ok objs
  | some (der, rest2) =>
    match dispatchBlock ps der with
    | Except.error e => Except.error e
    | Except.ok none => ParsePEMsLoop d ps objs rest2
    | Except.ok (some r) => ParsePEMsLoop d ps (objs ++ [r]) rest2
termination_by rest.length
decreasing_by all_goals exact d.shrinks h

/-- Embeds `ParsePEMs`: normalize the input with `intoBytes` (propagating
its error), run the decode/dispatch loop from the full buffer (propagating a
parser error verbatim), then return the accumulated objects if there is at
least one, and `ErrPemIsUnsupportedType` otherwise. -/
def ParsePEMs (d : PemDecoder) (ps : Parsers C R E O Err)
    (pemInt : PemInput Err) : Except (PemError Err) (ParsedPEMs C R E O) :=
  match intoBytes pemInt with
  | Except.error e => Except.error e
  | Except.ok pemBytes =>
    match ParsePEMsLoop d ps [] pemBytes with
    | Except.error e => Except.error (PemError.goError e)
    | Except.ok objs =>
      if objs.length > 0 then Except.ok ⟨objs⟩
      else Except.error PemError.unsupportedType

/-- The full sequence of blocks `pem.Decode` yields when applied repeatedly
from a buffer.  The Go loop interleaves decoding and dispatching; since the
decoder is pure, the loop's behaviour is fully characterised by this
sequence (lemma `ParsePEMsLoop_eq_accumulate`). -/
def PemDecoder.decodeAll (d : PemDecoder) (b : List Nat) : List PemBlock :=
  match h : d.decode b with
  | none => []
  | some (blk, rest) => blk :: d.decodeAll rest
termination_by b.length
decreasing_by exact d.shrinks h

/-- Specification-level view of the loop: dispatch the decoded blocks in
order, aborting at the first parser error and collecting the produced
objects. -/
def accumulateBlocks (ps : Parsers C R E O Err) :
    List PemBlock → Except Err (List (GoValue C R E O))
  | [] => Except.ok []
  | blk :: rest =>
    match dispatchBlock ps blk with
    | Except.error e => Except.error e
    | Except.ok none => accumulateBlocks ps rest
    | Except.ok (some r) => (accumulateBlocks ps rest).map (fun l => r :: l)

/-- The object a single block contributes on a successful run: `some` of the
parsed value for a recognized block whose parser succeeds, `none` otherwise. -/
def recognizedParse (ps : Parsers C R E O Err) (blk : PemBlock) :
    Option (GoValue C R E O) :=
  match dispatchBlock ps blk with
  | Except.ok o => o
  | Except.error _ => none

theorem decodeAll_none {d : PemDecoder} {b : List Nat}
    (h : d.decode b = none) : d.decodeAll b = [] := by
  rw [PemDecoder.decodeAll]
  split
  · rfl
  · rename_i blk rest hsome
    rw [h] at hsome
    exact absurd hsome (by simp)

theorem decodeAll_some {d : PemDecoder} {b : List Nat} {blk : PemBlock}
    {rest : List Nat} (h : d.decode b = some (blk, rest)) :
    d.decodeAll b = blk :: d.decodeAll rest := by
  rw [PemDecoder.decodeAll]
  split
  · rename_i hnone
    rw [h] at hnone
    exact absurd hnone (by simp)
  · rename_i blk2 rest2 hsome
    rw [h] at hsome
    cases hsome
    rfl

theorem ParsePEMsLoop_none {d : PemDecoder} {ps : Parsers C R E O Err}
    {objs : List (GoValue C R E O)} {rest : List Nat}
    (h : d.decode rest = none) :
    ParsePEMsLoop d ps objs rest = Except.ok objs := by
  rw [ParsePEMsLoop]
  split
  · rfl
  · rename_i der rest2 hsome
    rw [h] at hsome
    exact absurd hsome (by simp)

theorem ParsePEMsLoop_some {d : PemDecoder} {ps : Parsers C R E O Err}
    {objs : List (GoValue C R E O)} {rest : List Nat} {der : PemBlock}
    {rest2 : List Nat} (h : d.decode rest = some (der, rest2)) :
    ParsePEMsLoop d ps objs rest =
      match dispatchBlock ps der with
      | Except.error e => Except.error e
      | Except.ok none => ParsePEMsLoop d ps objs rest2
      | Except.ok (some r) => ParsePEMsLoop d ps (objs ++ [r]) rest2 := by
  rw [ParsePEMsLoop]
  split
  · rename_i hnone
    rw [h] at hnone
    exact absurd hnone (by simp)
  · rename_i der2 rest3 hsome
    rw [h] at hsome
    cases hsome
    rfl

/-- The interleaved decode/dispatch loop computes exactly the dispatch of
the decoded block sequence, appended to the accumulator. -/
theorem ParsePEMsLoop_eq_accumulate (d : PemDecoder) (ps : Parsers C R E O Err) :
    ∀ (n : Nat) (b : List Nat), b.length ≤ n →
      ∀ objs : List (GoValue C R E O),
        ParsePEMsLoop d ps objs b =
          (accumulateBlocks ps (d.decodeAll b)).map (fun l => objs ++ l) := by
  intro n
  induction n with
  | zero =>
    intro b hb objs
    cases hd : d.decode b with
    | none =>
      rw [ParsePEMsLoop_none hd, decodeAll_none hd]
      simp [accumulateBlocks, Except.map]
    | some pr =>
      exact absurd (d.shrinks hd) (by omega)
  | succ n ih =>
    intro b hb objs
    cases hd : d.decode b with
    | none =>
      rw [ParsePEMsLoop_none hd, decodeAll_none hd]
      simp [accumulateBlocks, Except.map]
    | some pr =>
      obtain ⟨der, rest2⟩ := pr
      have hlen : rest2.length ≤ n := by
        have := d.shrinks hd
        omega
      rw [ParsePEMsLoop_some hd, decodeAll_some hd]
      cases hdis : dispatchBlock ps der with
      | error e => simp [accumulateBlocks, hdis, Except.map]
      | ok o =>
        cases o with
        | none => simp only [accumulateBlocks, hdis]; exact ih rest2 hlen objs
        | some r =>
          simp only [accumulateBlocks, hdis]
          rw [ih rest2 hlen (objs ++ [r])]
          cases hacc : accumulateBlocks ps (d.decodeAll rest2) with
          | error e => simp [Except.map]
          | ok l => simp [Except.map]

/-- `ParsePEMsLoop` started from the empty accumulator, as `ParsePEMs`
invokes it, equals the blockwise accumulation of the decoded sequence. -/
theorem ParsePEMsLoop_nil_eq (d : PemDecoder) (ps : Parsers C R E O Err)
    (b : List Nat) :
    ParsePEMsLoop d ps [] b = accumulateBlocks ps (d.decodeAll b) := by
  rw [ParsePEMsLoop_eq_accumulate d ps b.length b le_rfl []]
  cases hacc : accumulateBlocks ps (d.decodeAll b) with
  | error e => simp [Except.map]
  | ok l => simp [Except.map]

/-- Block-type table for the concrete test decoder: each input byte `t`
stands for one PEM block whose type is selected by `t % 5`. -/
def natBlockType (t : Nat) : String :=
  match t % 5 with
  | 0 => "CERTIFICATE"
  | 1 => "RSA PRIVATE KEY"
  | 2 => "EC PRIVATE KEY"
  | 3 => "PRIVATE KEY"
  | _ => "CERTIFICATE REQUEST"

/-- A concrete decoding function for tests: each byte below 10 yields one
block (type from `natBlockType`, DER body `[t]`); a byte of 10 or more ends
decoding, like trailing non-PEM data. -/
def testDecode : List Nat → Option (PemBlock × List Nat)
  | [] => none
  | t :: rest => if t ≥ 10 then none else some (⟨natBlockType t, [t]⟩, rest)

/-- The concrete test decoder. -/
def testDecoder : PemDecoder :=
  ⟨testDecode, by
    intro b blk rest h
    cases b with
    | nil => exact absurd h (by simp [testDecode])
    | cons t b2 =>
      by_cases ht : t ≥ 10
      · rw [testDecode, if_pos ht] at h
        exact absurd h (by simp)
      · rw [testDecode, if_neg ht] at h
        cases h
        simp⟩

/-- Concrete test parsers over `Nat` payloads: each fails on a DER body whose
first byte is 5 or more, succeeds otherwise; the PKCS#8 parser returns an RSA
key for body 3 and an EC key otherwise, modelling its dynamic result type. -/
def testParsers : Parsers Nat Nat Nat Nat Nat :=
  ⟨fun b => if b.headD 0 ≥ 5 then Except.error 41 else Except.ok (b.headD 0),
   fun b => if b.headD 0 ≥ 5 then Except.error 42 else Except.ok (b.headD 0 + 10),
   fun b => if b.headD 0 ≥ 5 then Except.error 43 else Except.ok (b.headD 0 + 20),
   fun b => if b.headD 0 ≥ 5 then Except.error 44
     else if b.headD 0 = 3 then Except.ok (GoValue.rsaKey (b.headD 0 + 10))
     else Except.ok (GoValue.ecKey (b.headD 0 + 40))⟩

/-- Structural (directly computable) form of `testDecoder.decodeAll`. -/
def testDecodeList : List Nat → List PemBlock
  | [] => []
  | t :: rest => if t ≥ 10 then [] else ⟨natBlockType t, [t]⟩ :: testDecodeList rest

theorem testDecoder_decodeAll : ∀ b : List Nat,
    testDecoder.decodeAll b = testDecodeList b := by
  intro b
  induction b with
  | nil => rw [decodeAll_none (by rfl)]; rfl
  | cons t rest ih =>
    by_cases ht : t ≥ 10
    · rw [decodeAll_none, testDecodeList, if_pos ht]
      show testDecode (t :: rest) = none
      rw [testDecode, if_pos ht]
    · rw [decodeAll_some (show testDecoder.decode (t :: rest) =
        some (⟨natBlockType t, [t]⟩, rest) from by
          show testDecode (t :: rest) = _
          rw [testDecode, if_neg ht]),
        testDecodeList, if_neg ht, ih]

/-- Evaluating `ParsePEMs` on concrete inputs under the test collaborators. -/
theorem testParsePEMs_eval (input : PemInput Nat) :
    ParsePEMs testDecoder testParsers input =
      match intoBytes input with
      | Except.error e => Except.error e
      | Except.ok pemBytes =>
        match accumulateBlocks testParsers (testDecodeList pemBytes) with
        | Except.error e => Except.error (PemError.goError e)
        | Except.ok objs =>
          if objs.length > 0 then Except.ok ⟨objs⟩
          else Except.error PemError.unsupportedType := by
  rw [ParsePEMs]
  cases hin : intoBytes input with
  | error e => rfl
  | ok pemBytes =>
    dsimp only
    rw [ParsePEMsLoop_nil_eq, testDecoder_decodeAll]
    cases accumulateBlocks testParsers (testDecodeList pemBytes) <;> rfl

theorem intoBytes_ne_unsupported (input : PemInput Err) :
    intoBytes input ≠ Except.error PemError.unsupportedType := by
  cases input with
  | bytes b => simp [intoBytes]
  | str s => simp [intoBytes]
  | reader r => cases r <;> simp [intoBytes]
  | otherShape => simp [intoBytes]

/-- On a successful run, the accumulated objects are exactly the per-block
recognized parses, in block order. -/
theorem accumulateBlocks_ok_filterMap {ps : Parsers C R E O Err}
    {blocks : List PemBlock} {l : List (GoValue C R E O)}
    (h : accumulateBlocks ps blocks = Except.ok l) :
    l = blocks.filterMap (recognizedParse ps) := by
  induction blocks generalizing l with
  | nil =>
    rw [accumulateBlocks] at h
    cases h
    rfl
  | cons blk rest ih =>
    rw [accumulateBlocks] at h
    cases hdis : dispatchBlock ps blk with
    | error e => rw [hdis] at h; exact absurd h (by simp)
    | ok o =>
      rw [hdis] at h
      cases o with
      | none =>
        rw [List.filterMap_cons, recognizedParse, hdis]
        exact ih h
      | some r =>
        cases hacc : accumulateBlocks ps rest with
        | error e => rw [hacc] at h; exact absurd h (by simp [Except.map])
        | ok l2 =>
          rw [hacc] at h
          simp only [Except.map] at h
          cases h
          rw [List.filterMap_cons, recognizedParse, hdis]
          rw [ih hacc]

/-- The first block whose dispatch fails determines the error of the whole
accumulation, regardless of what follows. -/
theorem accumulateBlocks_first_error {ps : Parsers C R E O Err}
    {pre : List PemBlock} {blk : PemBlock} {post : List PemBlock} {e : Err}
    (hpre : ∀ x ∈ pre, ∃ r, dispatchBlock ps x = Except.ok r)
    (hblk : dispatchBlock ps blk = Except.error e) :
    accumulateBlocks ps (pre ++ blk :: post) = Except.error e := by
  induction pre with
  | nil =>
    rw [List.nil_append, accumulateBlocks, hblk]
  | cons x pre2 ih =>
    have hx := hpre x (by simp)
    obtain ⟨r, hr⟩ := hx
    have ih2 := ih (fun y hy => hpre y (by simp [hy]))
    rw [List.cons_append, accumulateBlocks, hr]
    cases r with
    | none => exact ih2
    | some v => rw [ih2]; rfl

/-- A block of unrecognized type dispatches to no parser and produces no
object. -/
theorem dispatchBlock_unrecognized {ps : Parsers C R E O Err} {blk : PemBlock}
    (h1 : blk.type ≠ "CERTIFICATE") (h2 : blk.type ≠ "RSA PRIVATE KEY")
    (h3 : blk.type ≠ "EC PRIVATE KEY") (h4 : blk.type ≠ "PRIVATE KEY") :
    dispatchBlock ps blk = Except.ok none := by
  rw [dispatchBlock, if_neg h1, if_neg h2, if_neg h3, if_neg h4]

/-- Removing an unrecognized block from the block sequence leaves the
accumulation unchanged: such a block is silently skipped. -/
theorem accumulateBlocks_skip_unrecognized {ps : Parsers C R E O Err}
    (pre : List PemBlock) {blk : PemBlock} (post : List PemBlock)
    (h1 : blk.type ≠ "CERTIFICATE") (h2 : blk.type ≠ "RSA PRIVATE KEY")
    (h3 : blk.type ≠ "EC PRIVATE KEY") (h4 : blk.type ≠ "PRIVATE KEY") :
    accumulateBlocks ps (pre ++ blk :: post) = accumulateBlocks ps (pre ++ post) := by
  induction pre with
  | nil =>
    rw [List.nil_append, List.nil_append, accumulateBlocks,
      dispatchBlock_unrecognized h1 h2 h3 h4]
  | cons x pre2 ih =>
    rw [List.cons_append, List.cons_append, accumulateBlocks, accumulateBlocks, ih]

/-- Claim C1: `ParsePEMs` fails with the no-recognized-blocks error
(`ErrPemIsUnsupportedType`, the spec's `NoRecognizedPEMBlocks`) exactly when
the decode/dispatch loop completed without a parser failure having
accumulated zero objects — even if unrecognized blocks were present — and
every result set returned on success has at least one element. -/
theorem claim_C1 (d : PemDecoder) (ps : Parsers C R E O Err)
    (input : PemInput Err) :
    (∀ s : ParsedPEMs C R E O, ParsePEMs d ps input = Except.ok s → 0 < s.Length) ∧
    (ParsePEMs d ps input = Except.error PemError.unsupportedType ↔
      ∃ b : List Nat, intoBytes input = Except.ok b ∧
        ParsePEMsLoop d ps [] b = Except.ok ([] : List (GoValue C R E O))) := by
  constructor
  · intro s hs
    rw [ParsePEMs] at hs
    cases hin : intoBytes input with
    | error e => rw [hin] at hs; exact absurd hs (by simp)
    | ok b =>
      rw [hin] at hs
      dsimp only at hs
      cases hloop : ParsePEMsLoop d ps [] b with
      | error e => rw [hloop] at hs; exact absurd hs (by simp)
      | ok objs =>
        rw [hloop] at hs
        dsimp only at hs
        by_cases hlen : objs.length > 0
        · rw [if_pos hlen] at hs
          cases hs
          exact hlen
        · rw [if_neg hlen] at hs; exact absurd hs (by simp)
  · constructor
    · intro h
      rw [ParsePEMs] at h
      cases hin : intoBytes input with
      | error e =>
        rw [hin] at h
        dsimp only at h
        cases h
        exact absurd hin (intoBytes_ne_unsupported input)
      | ok b =>
        rw [hin] at h
        dsimp only at h
        cases hloop : ParsePEMsLoop d ps [] b with
        | error e => rw [hloop] at h; exact absurd h (by simp)
        | ok objs =>
          rw [hloop] at h
          dsimp only at h
          by_cases hlen : objs.length > 0
          · rw [if_pos hlen] at h; exact absurd h (by simp)
          · refine ⟨b, rfl, ?_⟩
            have hnil : objs = [] := List.length_eq_zero.mp (by omega)
            rw [hloop, hnil]
    · rintro ⟨b, hin, hloop⟩
      rw [ParsePEMs, hin]
      dsimp only
      rw [hloop]
      rfl

/-- Witness for C1: a lone certificate block yields a result set of length
one, and an input holding only an unrecognized block fails with the
no-recognized-blocks error. -/
theorem claim_C1_witness :
    0 < (ParsedPEMs.mk [GoValue.cert 0] : ParsedPEMs Nat Nat Nat Nat).Length ∧
    ParsePEMs testDecoder testParsers (PemInput.bytes [4]) =
      Except.error PemError.unsupportedType :=
  ⟨(claim_C1 testDecoder testParsers (PemInput.bytes [0])).1 ⟨[GoValue.cert 0]⟩
      (by rw [testParsePEMs_eval]; decide),
   (claim_C1 testDecoder testParsers (PemInput.bytes [4])).2.mpr
      ⟨[4], rfl, by rw [ParsePEMsLoop_nil_eq, testDecoder_decodeAll]; decide⟩⟩

/-- Claim C2: when, in the decoded block sequence, the blocks before some
block all dispatch without error and that block's external parser fails with
`e`, `ParsePEMs` returns exactly that failure as its own error and returns
no result set — earlier successfully parsed objects are discarded. -/
theorem claim_C2 (d : PemDecoder) (ps : Parsers C R E O Err)
    (input : PemInput Err) (b : List Nat) (pre : List PemBlock)
    (blk : PemBlock) (post : List PemBlock) (e : Err)
    (hin : intoBytes input = Except.ok b)
    (hblocks : d.decodeAll b = pre ++ blk :: post)
    (hpre : ∀ x ∈ pre, ∃ r, dispatchBlock ps x = Except.ok r)
    (hblk : dispatchBlock ps blk = Except.error e) :
    ParsePEMs d ps input = Except.error (PemError.goError e) ∧
    ∀ s : ParsedPEMs C R E O, ParsePEMs d ps input ≠ Except.ok s := by
  have hloop : ParsePEMsLoop d ps [] b = Except.error e := by
    rw [ParsePEMsLoop_nil_eq, hblocks]
    exact accumulateBlocks_first_error hpre hblk
  constructor
  · rw [ParsePEMs, hin]
    dsimp only
    rw [hloop]
  · intro s hs
    rw [ParsePEMs, hin] at hs
    dsimp only at hs
    rw [hloop] at hs
    exact absurd hs (by simp)

/-- Witness for C2: a certificate block followed by a malformed RSA block
and a good EC block — the RSA parser's error 42 is returned and the
certificate parsed before it is discarded. -/
theorem claim_C2_witness :
    ParsePEMs testDecoder testParsers (PemInput.bytes [0, 6, 2]) =
      Except.error (PemError.goError 42) :=
  (claim_C2 testDecoder testParsers (PemInput.bytes [0, 6, 2]) [0, 6, 2]
    [⟨"CERTIFICATE", [0]⟩] ⟨"RSA PRIVATE KEY", [6]⟩ [⟨"EC PRIVATE KEY", [2]⟩] 42
    rfl
    (by rw [testDecoder_decodeAll]; decide)
    (by
      intro x hx
      simp only [List.mem_singleton] at hx
      subst hx
      exact ⟨some (GoValue.cert 0), by decide⟩)
    (by decide)).1

/-- Claim C3 counterexample: on a result set whose front element is an EC
key, `MustCertificate` fails with the type-mismatch panic, but the front
element is NOT consumed — the length stays 1 rather than decreasing to 0 as
the claim states. -/
theorem claim_C3_cex :
    ((ParsedPEMs.mk [GoValue.ecKey 5] : ParsedPEMs Nat Nat Nat Nat).MustCertificate.1 =
      Except.error MustError.notCertificate) ∧
    ¬ ((ParsedPEMs.mk [GoValue.ecKey 5] : ParsedPEMs Nat Nat Nat Nat).MustCertificate.2.Length =
      (ParsedPEMs.mk [GoValue.ecKey 5] : ParsedPEMs Nat Nat Nat Nat).Length - 1) := by
  decide

/-- Claim C3 (amended): a typed consumption call on a non-empty result set
whose front element does not match the asserted variant fails with the
type-mismatch panic and leaves the result set unchanged — the front element
is NOT consumed, since the Go panic fires before the slice is advanced. -/
theorem claim_C3 (p : ParsedPEMs C R E O) (v : GoValue C R E O)
    (rest : List (GoValue C R E O)) (hp : p.objs = v :: rest) :
    ((∀ c : C, v ≠ GoValue.cert c) →
      p.MustCertificate = (Except.error MustError.notCertificate, p)) ∧
    ((∀ k : R, v ≠ GoValue.rsaKey k) →
      p.MustRSAPrivateKey = (Except.error MustError.notRSAPrivateKey, p)) ∧
    ((∀ k : E, v ≠ GoValue.ecKey k) →
      p.MustECPrivateKey = (Except.error MustError.notECPrivateKey, p)) := by
  obtain ⟨objs⟩ := p
  dsimp only at hp
  subst hp
  refine ⟨?_, ?_, ?_⟩ <;> intro hv
  · cases v with
    | cert c => exact absurd rfl (hv c)
    | rsaKey k => rfl
    | ecKey k => rfl
    | other o => rfl
  · cases v with
    | cert c => rfl
    | rsaKey k => exact absurd rfl (hv k)
    | ecKey k => rfl
    | other o => rfl
  · cases v with
    | cert c => rfl
    | rsaKey k => rfl
    | ecKey k => exact absurd rfl (hv k)
    | other o => rfl

/-- Witness for C3 (amended): `MustCertificate` on a front EC key fails and
returns the set unchanged. -/
theorem claim_C3_witness :
    (ParsedPEMs.mk [GoValue.ecKey 5] : ParsedPEMs Nat Nat Nat Nat).MustCertificate =
      (Except.error MustError.notCertificate, ⟨[GoValue.ecKey 5]⟩) :=
  (claim_C3 ⟨[GoValue.ecKey 5]⟩ (GoValue.ecKey 5) [] rfl).1 (by intro c h; cases h)

/-- Claim C4: every consumption call — `Interface` or any typed `Must*`
accessor — on a result set with zero remaining elements fails with the
underrun panic (the `p.objs[0]` index-out-of-range, the spec's
`EmptyResultSet`) rather than returning a value, leaving the set unchanged. -/
theorem claim_C4 (p : ParsedPEMs C R E O) (h : p.Length = 0) :
    p.Interface = (Except.error MustError.indexOutOfRange, p) ∧
    p.MustCertificate = (Except.error MustError.indexOutOfRange, p) ∧
    p.MustRSAPrivateKey = (Except.error MustError.indexOutOfRange, p) ∧
    p.MustECPrivateKey = (Except.error MustError.indexOutOfRange, p) := by
  obtain ⟨objs⟩ := p
  have hnil : objs = [] := List.eq_nil_of_length_eq_zero h
  subst hnil
  exact ⟨rfl, rfl, rfl, rfl⟩

/-- Witness for C4: the empty result set underruns on `Interface`. -/
theorem claim_C4_witness :
    (ParsedPEMs.mk [] : ParsedPEMs Nat Nat Nat Nat).Interface =
      (Except.error MustError.indexOutOfRange, ⟨[]⟩) :=
  (claim_C4 ⟨[]⟩ rfl).1

/-- Claim C5: dispatch is an exact string match — `CERTIFICATE`,
`RSA PRIVATE KEY`, `EC PRIVATE KEY` and `PRIVATE KEY` invoke the X.509,
PKCS#1, EC and PKCS#8 parsers respectively — and a block of any other type
produces no object and no error: deleting it from the decoded sequence
leaves the accumulated result unchanged. -/
theorem claim_C5 (ps : Parsers C R E O Err) :
    (∀ bts, dispatchBlock ps ⟨"CERTIFICATE", bts⟩ =
      (ps.ParseCertificate bts).map (fun r => some (GoValue.cert r))) ∧
    (∀ bts, dispatchBlock ps ⟨"RSA PRIVATE KEY", bts⟩ =
      (ps.ParsePKCS1PrivateKey bts).map (fun r => some (GoValue.rsaKey r))) ∧
    (∀ bts, dispatchBlock ps ⟨"EC PRIVATE KEY", bts⟩ =
      (ps.ParseECPrivateKey bts).map (fun r => some (GoValue.ecKey r))) ∧
    (∀ bts, dispatchBlock ps ⟨"PRIVATE KEY", bts⟩ =
      (ps.ParsePKCS8PrivateKey bts).map (fun r => some r)) ∧
    (∀ blk : PemBlock, blk.type ≠ "CERTIFICATE" → blk.type ≠ "RSA PRIVATE KEY" →
      blk.type ≠ "EC PRIVATE KEY" → blk.type ≠ "PRIVATE KEY" →
      dispatchBlock ps blk = Except.ok none ∧
      ∀ pre post, accumulateBlocks ps (pre ++ blk :: post) =
        accumulateBlocks ps (pre ++ post)) := by
  refine ⟨?_, ?_, ?_, ?_, ?_⟩
  · intro bts
    rfl
  · intro bts
    rfl
  · intro bts
    rfl
  · intro bts
    rfl
  · intro blk h1 h2 h3 h4
    exact ⟨dispatchBlock_unrecognized h1 h2 h3 h4,
      fun pre post => accumulateBlocks_skip_unrecognized pre post h1 h2 h3 h4⟩

/-- Witness for C5: a `CERTIFICATE REQUEST` block is dispatched to no
parser and dropping it from between two recognized blocks changes nothing. -/
theorem claim_C5_witness :
    dispatchBlock testParsers ⟨"CERTIFICATE REQUEST", [4]⟩ = Except.ok none ∧
    accumulateBlocks testParsers
        ([⟨"CERTIFICATE", [0]⟩] ++ ⟨"CERTIFICATE REQUEST", [4]⟩ :: [⟨"EC PRIVATE KEY", [2]⟩]) =
      accumulateBlocks testParsers ([⟨"CERTIFICATE", [0]⟩] ++ [⟨"EC PRIVATE KEY", [2]⟩]) := by
  have h := (claim_C5 testParsers).2.2.2.2 ⟨"CERTIFICATE REQUEST", [4]⟩
    (by decide) (by decide) (by decide) (by decide)
  exact ⟨h.1, h.2 [⟨"CERTIFICATE", [0]⟩] [⟨"EC PRIVATE KEY", [2]⟩]⟩

/-- Claim C6: on success the returned objects are exactly the recognized
blocks' parsed values in the blocks' textual order — unrecognized blocks are
skipped without reordering the recognized ones. -/
theorem claim_C6 (d : PemDecoder) (ps : Parsers C R E O Err)
    (input : PemInput Err) (b : List Nat) (s : ParsedPEMs C R E O)
    (hin : intoBytes input = Except.ok b)
    (hs : ParsePEMs d ps input = Except.ok s) :
    s.objs = (d.decodeAll b).filterMap (recognizedParse ps) := by
  rw [ParsePEMs, hin] at hs
  dsimp only at hs
  cases hloop : ParsePEMsLoop d ps [] b with
  | error e => rw [hloop] at hs; exact absurd hs (by simp)
  | ok objs =>
    rw [hloop] at hs
    dsimp only at hs
    by_cases hlen : objs.length > 0
    · rw [if_pos hlen] at hs
      cases hs
      rw [ParsePEMsLoop_nil_eq] at hloop
      exact accumulateBlocks_ok_filterMap hloop
    · rw [if_neg hlen] at hs; exact absurd hs (by simp)

/-- Witness for C6: an RSA key block, an unrecognized block and an EC key
block yield the RSA and EC objects in that order. -/
theorem claim_C6_witness :
    (ParsedPEMs.mk [GoValue.rsaKey 11, GoValue.ecKey 22] : ParsedPEMs Nat Nat Nat Nat).objs =
      (testDecoder.decodeAll [1, 4, 2]).filterMap (recognizedParse testParsers) :=
  claim_C6 testDecoder testParsers (PemInput.bytes [1, 4, 2]) [1, 4, 2]
    ⟨[GoValue.rsaKey 11, GoValue.ecKey 22]⟩ rfl (by rw [testParsePEMs_eval]; decide)

/-- Claim C7: the input normalizer returns a byte input unchanged, returns
the bytes of a string input, returns the full drain of a reader input
(propagating a read failure as the call's error), and fails with
`ErrPemUnderlyingFormatError` (the spec's `UnsupportedInputFormat`) on every
input of any other dynamic type. -/
theorem claim_C7 :
    (∀ b : List Nat, intoBytes (PemInput.bytes b : PemInput Err) = Except.ok b) ∧
    (∀ s : List Nat, intoBytes (PemInput.str s : PemInput Err) = Except.ok s) ∧
    (∀ b : List Nat, intoBytes (PemInput.reader (Except.ok b) : PemInput Err) =
      Except.ok b) ∧
    (∀ e : Err, intoBytes (PemInput.reader (Except.error e)) =
      Except.error (PemError.goError e)) ∧
    intoBytes (PemInput.otherShape : PemInput Err) =
      Except.error PemError.underlyingFormatError :=
  ⟨fun _ => rfl, fun _ => rfl, fun _ => rfl, fun _ => rfl, rfl⟩

/-- Claim C8: for the same byte content `T`, `ParsePEMs` on the byte input,
on the string input, and on a stream successfully yielding those bytes
returns identical results — in particular identical result sets with the
same variants in the same order. -/
theorem claim_C8 (d : PemDecoder) (ps : Parsers C R E O Err) (T : List Nat) :
    ParsePEMs d ps (PemInput.bytes T) = ParsePEMs d ps (PemInput.str T) ∧
    ParsePEMs d ps (PemInput.str T) = ParsePEMs d ps (PemInput.reader (Except.ok T)) :=
  ⟨rfl, rfl⟩

/-- Claim C9 counterexample: there is no GenericPrivateKey accessor in the
consumption API; on a result set whose front element is a PKCS#8-parsed
value of some other dynamic type (e.g. an Ed25519 key), every typed accessor
the API offers fails, so no typed accessor returns the generic private key. -/
theorem claim_C9_cex :
    ((ParsedPEMs.mk [GoValue.other 3] : ParsedPEMs Nat Nat Nat Nat).MustCertificate.1 =
      Except.error MustError.notCertificate) ∧
    ((ParsedPEMs.mk [GoValue.other 3] : ParsedPEMs Nat Nat Nat Nat).MustRSAPrivateKey.1 =
      Except.error MustError.notRSAPrivateKey) ∧
    ((ParsedPEMs.mk [GoValue.other 3] : ParsedPEMs Nat Nat Nat Nat).MustECPrivateKey.1 =
      Except.error MustError.notECPrivateKey) := by
  decide

/-- Claim C9 (amended): the result set offers exactly three typed
consumption accessors — Certificate, RSAPrivateKey, ECPrivateKey — each of
which, on a set whose front element matches its variant, removes the front
element and returns its concrete value; a PKCS#8-parsed object has no
variant of its own and is consumed through those same accessors (per its
dynamic type) or through the untyped `Interface`. -/
theorem claim_C9 (rest : List (GoValue C R E O)) :
    (∀ c : C, (ParsedPEMs.mk (GoValue.cert c :: rest)).MustCertificate =
      (Except.ok c, ⟨rest⟩)) ∧
    (∀ k : R, (ParsedPEMs.mk (GoValue.rsaKey k :: rest)).MustRSAPrivateKey =
      (Except.ok k, ⟨rest⟩)) ∧
    (∀ k : E, (ParsedPEMs.mk (GoValue.ecKey k :: rest)).MustECPrivateKey =
      (Except.ok k, ⟨rest⟩)) ∧
    (∀ v : GoValue C R E O, (ParsedPEMs.mk (v :: rest)).Interface =
      (Except.ok v, ⟨rest⟩)) :=
  ⟨fun _ => rfl, fun _ => rfl, fun _ => rfl, fun v => by cases v <;> rfl⟩

/-- Claim C10: a `PRIVATE KEY` (PKCS#8) block's object is stored exactly as
the PKCS#8 parser returned it, with no tag of its own: when that parser
yields an RSA key it is the very same stored value a PKCS#1 block producing
that key yields, and it is returned by `MustRSAPrivateKey`; when it yields
an EC key it is returned by `MustECPrivateKey`. -/
theorem claim_C10 (ps : Parsers C R E O Err) (bts bts2 : List Nat) :
    (∀ v, ps.ParsePKCS8PrivateKey bts = Except.ok v →
      dispatchBlock ps ⟨"PRIVATE KEY", bts⟩ = Except.ok (some v)) ∧
    (∀ k, ps.ParsePKCS8PrivateKey bts = Except.ok (GoValue.rsaKey k) →
      ps.ParsePKCS1PrivateKey bts2 = Except.ok k →
      dispatchBlock ps ⟨"PRIVATE KEY", bts⟩ =
        dispatchBlock ps ⟨"RSA PRIVATE KEY", bts2⟩) ∧
    (∀ (k : R) (rest : List (GoValue C R E O)),
      (ParsedPEMs.mk (GoValue.rsaKey k :: rest)).MustRSAPrivateKey =
        (Except.ok k, ⟨rest⟩)) ∧
    (∀ (k : E) (rest : List (GoValue C R E O)),
      (ParsedPEMs.mk (GoValue.ecKey k :: rest)).MustECPrivateKey =
        (Except.ok k, ⟨rest⟩)) := by
  refine ⟨?_, ?_, fun k rest => rfl, fun k rest => rfl⟩
  · intro v h
    show (ps.ParsePKCS8PrivateKey bts).map (fun r => some r) = Except.ok (some v)
    rw [h]
    rfl
  · intro k h8 h1
    show (ps.ParsePKCS8PrivateKey bts).map (fun r => some r) =
      (ps.ParsePKCS1PrivateKey bts2).map (fun r => some (GoValue.rsaKey r))
    rw [h8, h1]
    rfl

/-- Witness for C10: the test PKCS#8 parser returns an RSA key on body `[3]`
that coincides with the PKCS#1 parse of the same body, so both block types
store the same object, and `MustRSAPrivateKey` returns it. -/
theorem claim_C10_witness :
    dispatchBlock testParsers ⟨"PRIVATE KEY", [3]⟩ =
        Except.ok (some (GoValue.rsaKey 13)) ∧
    dispatchBlock testParsers ⟨"PRIVATE KEY", [3]⟩ =
        dispatchBlock testParsers ⟨"RSA PRIVATE KEY", [3]⟩ ∧
    (ParsedPEMs.mk [GoValue.rsaKey 13] : ParsedPEMs Nat Nat Nat Nat).MustRSAPrivateKey =
        (Except.ok 13, ⟨[]⟩) :=
  ⟨(claim_C10 testParsers [3] [3]).1 (GoValue.rsaKey 13) (by decide),
   (claim_C10 testParsers [3] [3]).2.1 13 (by decide) (by decide),
   (claim_C10 testParsers [3] [3]).2.2.1 13 []⟩

end Betterpem
